import Mathlib

/-!
Mat3x3: a 3x3 matrix value type

Shallow embedding of `src/Mat3x3.h`, `src/Mat3x3.cpp` and the matrices built in
`src/main.cpp`.

Modelling conventions.

* A `double` is an exact rational number (`ℚ`): no rounding, no NaN, no
  infinities and no signed zero.  Every arithmetic expression of the source is
  kept in the shape and operand order in which the source writes it.
* `std::array<std::array<double, 3>, 3>` is a function `Fin 3 → Fin 3 → ℚ`;
  `matrix[i][j]` is `matrix i j`.
* Where a claim equates values that the program reaches by different
  computations and does not itself take the entries as exact numbers, rounding
  decides it.  For those the operators involved are also given with every
  result rounded to binary64 (`roundDouble`, round to nearest, ties to even),
  under names ending in `Rounded`.  Where overflow decides a claim, `Double`
  adds the infinities and NaN to the rounded finite values, and
  `Mat3x3Double` is the class over it.
* A `throw` is the `error` case of `Except Exception`.
* A member function that mutates its receiver returns the receiver after the
  call; one that can throw returns the outcome together with the receiver
  after the call.
* The counted loops `for (int i = 0; i < 3; ++i) for (int j = 0; j < 3; ++j)`
  and the range loops over the rows and their values both visit the cells in
  row-major order; they are the fold `forIJ`.
-/

/-- The two standard exceptions the source throws, with their message. -/
inductive Exception where
  | overflow_error (what : String)
  | invalid_argument (what : String)
deriving DecidableEq, Repr

/-- The class `Mat3x3`: its only data member is `matrix`. -/
@[ext]
structure Mat3x3 where
  matrix : Fin 3 → Fin 3 → ℚ

namespace Mat3x3

instance : DecidableEq Mat3x3 := fun a b =>
  decidable_of_iff (a.matrix = b.matrix) (by
    constructor
    · intro h
      exact Mat3x3.ext h
    · intro h
      rw [h])

/-- The index values `0, 1, 2` in the order a loop `for (int i = 0; i < 3; ++i)` takes them. -/
def range3 : List (Fin 3) := [0, 1, 2]

/-- The nested loop over all cells, row by row, threading the state `s`. -/
def forIJ {σ : Type} (body : Fin 3 → Fin 3 → σ → σ) (s : σ) : σ :=
  range3.foldl (fun acc i => range3.foldl (fun acc2 j => body i j acc2) acc) s

/-- The assignment `m.matrix[i][j] = v`. -/
def set (m : Mat3x3) (i j : Fin 3) (v : ℚ) : Mat3x3 :=
  ⟨fun r c => if r = i ∧ c = j then v else m.matrix r c⟩

/-- The default constructor `Mat3x3()`: all entries 0. -/
def zero : Mat3x3 := ⟨fun _ _ => 0⟩

/-- A brace initialiser of nine values in row-major order, as `main` writes them. -/
def ofRows (a b c d e f g h i : ℚ) : Mat3x3 :=
  ⟨fun r col => ![![a, b, c], ![d, e, f], ![g, h, i]] r col⟩

/-- The method `Mat3x3::determinant() const`. -/
def determinant (self : Mat3x3) : ℚ :=
  self.matrix 0 0 * (self.matrix 1 1 * self.matrix 2 2 - self.matrix 2 1 * self.matrix 1 2) -
  self.matrix 0 1 * (self.matrix 1 0 * self.matrix 2 2 - self.matrix 2 0 * self.matrix 1 2) +
  self.matrix 0 2 * (self.matrix 1 0 * self.matrix 2 1 - self.matrix 2 0 * self.matrix 1 1)

/-- The function object `Mat3x3::operator()() const`. -/
def opCall (self : Mat3x3) : ℚ :=
  self.determinant

/-- The method `Mat3x3::trace() const`. -/
def trace (self : Mat3x3) : ℚ :=
  self.matrix 0 0 + self.matrix 1 1 + self.matrix 2 2

/-- The method `Mat3x3::isAntisymmetric() const`. -/
def isAntisymmetric (self : Mat3x3) : Bool :=
  decide (self.matrix 0 1 = -self.matrix 1 0) &&
  decide (self.matrix 0 2 = -self.matrix 2 0) &&
  decide (self.matrix 1 2 = -self.matrix 2 1)

/-- The method `Mat3x3::isSymmetric() const`. -/
def isSymmetric (self : Mat3x3) : Bool :=
  decide (self.matrix 0 1 = self.matrix 1 0) &&
  decide (self.matrix 0 2 = self.matrix 2 0) &&
  decide (self.matrix 1 2 = self.matrix 2 1)

/-- The constant `std::numeric_limits<double>::epsilon()` of the C++ standard
library: the gap between 1 and the next double, `2^-52`. -/
def epsilon : ℚ := 1 / 2 ^ 52

/-- The method `Mat3x3::isInvertible() const`. -/
def isInvertible (self : Mat3x3) : Bool :=
  decide (|self.determinant| > epsilon)

/-- The variables of a call of `Mat3x3::transpose() const`: the receiver and the local `result`. -/
structure TransposeFrame where
  self : Mat3x3
  result : Mat3x3

/-- The body of `Mat3x3::transpose() const`, up to the `return`. -/
def transposeFrame (self : Mat3x3) : TransposeFrame :=
  forIJ (fun i j fr => { fr with result := fr.result.set i j (fr.self.matrix j i) })
    { self := self, result := zero }

/-- The method `Mat3x3::transpose() const`: it returns the local `result`. -/
def transpose (self : Mat3x3) : Mat3x3 :=
  (transposeFrame self).result

/-- The method `Mat3x3::isIdentity() const`: two loops, each leaving with `false`
at the first cell that fails its test. -/
def isIdentity (self : Mat3x3) : Bool :=
  if range3.any (fun i => self.matrix i i != 1) then false
  else if range3.any (fun i => range3.any (fun j => i != j && self.matrix i j != 0)) then false
  else true

/-- The compound assignment `Mat3x3::operator+=(const Mat3x3 &rhs)`. -/
def opAddAssign (self rhs : Mat3x3) : Mat3x3 :=
  forIJ (fun i j this => this.set i j (this.matrix i j + rhs.matrix i j)) self

/-- The compound assignment `Mat3x3::operator-=(const Mat3x3 &rhs)`. -/
def opSubAssign (self rhs : Mat3x3) : Mat3x3 :=
  forIJ (fun i j this => this.set i j (this.matrix i j - rhs.matrix i j)) self

/-- The variables of a call of `Mat3x3::operator*(const Mat3x3 &rhs) const`:
the receiver, the argument and the local `result`. -/
structure MulFrame where
  self : Mat3x3
  rhs : Mat3x3
  result : Mat3x3

/-- The body of `Mat3x3::operator*(const Mat3x3 &rhs) const`, up to the `return`. -/
def opMulFrame (self rhs : Mat3x3) : MulFrame :=
  forIJ (fun i j fr =>
      { fr with result :=
          fr.result.set i j (fr.result.matrix i j + fr.self.matrix i j * fr.rhs.matrix i j) })
    { self := self, rhs := rhs, result := zero }

/-- The operator `Mat3x3::operator*(const Mat3x3 &rhs) const`: it returns the local `result`. -/
def opMul (self rhs : Mat3x3) : Mat3x3 :=
  (opMulFrame self rhs).result

/-- The variables of a call of `Mat3x3::operator*(double scalar) const`: the
receiver and the local `result`. -/
structure MulScalarFrame where
  self : Mat3x3
  result : Mat3x3

/-- The body of `Mat3x3::operator*(double scalar) const`, up to the `return`. -/
def opMulScalarFrame (self : Mat3x3) (scalar : ℚ) : MulScalarFrame :=
  forIJ (fun i j fr => { fr with result := fr.result.set i j (fr.self.matrix i j * scalar) })
    { self := self, result := zero }

/-- The operator `Mat3x3::operator*(double scalar) const`: it returns the local `result`. -/
def opMulScalar (self : Mat3x3) (scalar : ℚ) : Mat3x3 :=
  (opMulScalarFrame self scalar).result

/-- The compound assignment `Mat3x3::operator*=(const Mat3x3 &rhs)`. -/
def opMulAssign (self rhs : Mat3x3) : Mat3x3 :=
  let temp := opMul self rhs
  temp

/-- The compound assignment `Mat3x3::operator+=(double x)`. -/
def opAddAssignScalar (self : Mat3x3) (x : ℚ) : Mat3x3 :=
  forIJ (fun i j this => this.set i j (this.matrix i j + x)) self

/-- The compound assignment `Mat3x3::operator-=(double x)`. -/
def opSubAssignScalar (self : Mat3x3) (x : ℚ) : Mat3x3 :=
  opAddAssignScalar self (-x)

/-- The compound assignment `Mat3x3::operator*=(double x)`. -/
def opMulAssignScalar (self : Mat3x3) (x : ℚ) : Mat3x3 :=
  forIJ (fun i j this => this.set i j (this.matrix i j * x)) self

/-- The compound assignment `Mat3x3::operator/=(double x)`: the outcome and the
receiver after the call. -/
def opDivAssignScalar (self : Mat3x3) (x : ℚ) : Except Exception Unit × Mat3x3 :=
  if x = 0 then
    (Except.error (Exception.overflow_error "Division by zero"), self)
  else
    (Except.ok (), opMulAssignScalar self (1 / x))

/-- The pre-increment `Mat3x3::operator++()`. -/
def preIncrement (self : Mat3x3) : Mat3x3 :=
  opAddAssignScalar self 1

/-- The post-increment `Mat3x3::operator++(int)`: the returned copy and the receiver after the call. -/
def postIncrement (self : Mat3x3) : Mat3x3 × Mat3x3 :=
  let temp := self
  (temp, preIncrement self)

/-- The pre-decrement `Mat3x3::operator--()`. -/
def preDecrement (self : Mat3x3) : Mat3x3 :=
  opSubAssignScalar self 1

/-- The post-decrement `Mat3x3::operator--(int)`: the returned copy and the receiver after the call. -/
def postDecrement (self : Mat3x3) : Mat3x3 × Mat3x3 :=
  let temp := self
  (temp, preDecrement self)

/-- The unary minus `Mat3x3::operator-() const`. -/
def opNeg (self : Mat3x3) : Mat3x3 :=
  forIJ (fun i j result => result.set i j (-self.matrix i j)) zero

/-- The unary plus `Mat3x3::operator+() const`. -/
def opPos (self : Mat3x3) : Mat3x3 :=
  self

/-- The method `Mat3x3::inverse() const`: the outcome and the receiver after the call. -/
def inverseCall (self : Mat3x3) : Except Exception Mat3x3 × Mat3x3 :=
  let det := self.determinant
  if det = 0 then
    (Except.error (Exception.overflow_error "Matrix is not invertible"), self)
  else
    let adjoint := zero
    let adjoint := adjoint.set 0 0 (self.matrix 1 1 * self.matrix 2 2 - self.matrix 2 1 * self.matrix 1 2)
    let adjoint := adjoint.set 0 1 (self.matrix 0 2 * self.matrix 2 1 - self.matrix 0 1 * self.matrix 2 2)
    let adjoint := adjoint.set 0 2 (self.matrix 0 1 * self.matrix 1 2 - self.matrix 0 2 * self.matrix 1 1)
    let adjoint := adjoint.set 1 0 (self.matrix 1 2 * self.matrix 2 0 - self.matrix 1 0 * self.matrix 2 2)
    let adjoint := adjoint.set 1 1 (self.matrix 0 0 * self.matrix 2 2 - self.matrix 0 2 * self.matrix 2 0)
    let adjoint := adjoint.set 1 2 (self.matrix 1 0 * self.matrix 0 2 - self.matrix 0 0 * self.matrix 1 2)
    let adjoint := adjoint.set 2 0 (self.matrix 1 0 * self.matrix 2 1 - self.matrix 2 0 * self.matrix 1 1)
    let adjoint := adjoint.set 2 1 (self.matrix 2 0 * self.matrix 0 1 - self.matrix 0 0 * self.matrix 2 1)
    let adjoint := adjoint.set 2 2 (self.matrix 0 0 * self.matrix 1 1 - self.matrix 1 0 * self.matrix 0 1)
    (Except.ok (opMulAssignScalar adjoint (1 / det)), self)

/-- The value or exception that `inverse()` gives its caller. -/
def inverse (self : Mat3x3) : Except Exception Mat3x3 :=
  (inverseCall self).1

/-- The method `Mat3x3::isOrthogonal() const`. -/
def isOrthogonal (self : Mat3x3) : Bool :=
  let transposed := self.transpose
  let identity := opMul self transposed
  identity.isIdentity

/-- The guard shared by both subscript operators. -/
def indexOutOfBounds (index : Int × Int) : Prop :=
  index.1 < 0 ∨ index.1 ≥ 3 ∨ index.2 < 0 ∨ index.2 ≥ 3

instance (index : Int × Int) : Decidable (indexOutOfBounds index) := by
  unfold indexOutOfBounds
  infer_instance

/-- The cell `matrix[index.first][index.second]` that an index inside the bounds names. -/
def cellOf (index : Int × Int) (h : ¬ indexOutOfBounds index) : Fin 3 × Fin 3 :=
  (⟨index.1.toNat, by unfold indexOutOfBounds at h; omega⟩,
   ⟨index.2.toNat, by unfold indexOutOfBounds at h; omega⟩)

/-- The subscript `Mat3x3::operator[](std::pair<int, int>) const`: the value read
through the returned `const double &`. -/
def opIndexConst (self : Mat3x3) (index : Int × Int) : Except Exception ℚ :=
  if h : indexOutOfBounds index then
    Except.error (Exception.invalid_argument "index out of bounds")
  else
    Except.ok (self.matrix (cellOf index h).1 (cellOf index h).2)

/-- The subscript `Mat3x3::operator[](std::pair<int, int>)`: the returned `double &`
is the cell of the receiver it refers to. -/
def opIndex (_self : Mat3x3) (index : Int × Int) : Except Exception (Fin 3 × Fin 3) :=
  if h : indexOutOfBounds index then
    Except.error (Exception.invalid_argument "index out of bounds")
  else
    Except.ok (cellOf index h)

/-- Reading through a `double &` into the receiver. -/
def deref (self : Mat3x3) (cell : Fin 3 × Fin 3) : ℚ :=
  self.matrix cell.1 cell.2

/-- The conversion `Mat3x3::operator bool() const`. -/
def opBool (self : Mat3x3) : Bool :=
  self.isInvertible

/-- The negation `Mat3x3::operator!() const`. -/
def opNot (self : Mat3x3) : Bool :=
  !self.isInvertible

/-- The matrix `im` of `main`. -/
def im : Mat3x3 := ofRows 1 0 0 0 1 0 0 0 1

/-- The matrix `A` of `main`. -/
def A : Mat3x3 := ofRows 1 1 (-2) (-3) (-2) 5 (-6) 4 4

/-- The matrix `m2` of `main`. -/
def m2 : Mat3x3 := ofRows (-28) (-12) 1 (-18) (-8) 1 (-24) (-10) 1

/-- The matrix `aInvSolution` of `main`: default constructed, then `+= m2 * 0.5`. -/
def aInvSolution : Mat3x3 :=
  opAddAssign zero (opMulScalar m2 0.5)

/-- The comparison `X == Y` as `main` writes it.  `Mat3x3.h` declares no
`operator==`, so the only reading of the expression is the built-in comparison
of the two operands after their implicit conversion `operator bool()`. -/
def opEq (lhs rhs : Mat3x3) : Bool :=
  lhs.opBool == rhs.opBool

/-- A test input: the rotation by a quarter turn about the third axis. -/
def quarterTurn : Mat3x3 := ofRows 0 (-1) 0 1 0 0 0 0 1

/-- A test input: the shear that adds the second coordinate to the first. -/
def shear : Mat3x3 := ofRows 1 1 0 0 1 0 0 0 1

/-! ### The rounded reading of the scalar additions -/

/-- Rounding of a rational to the nearest integer, a tie going to the even one. -/
def roundHalfEven (x : ℚ) : ℤ :=
  if x - ⌊x⌋ < 1 / 2 then ⌊x⌋
  else if 1 / 2 < x - ⌊x⌋ then ⌊x⌋ + 1
  else if ⌊x⌋ % 2 = 0 then ⌊x⌋
  else ⌊x⌋ + 1

/-- The exponent of the unit in the last place of the binary64 values around `q`:
53 significant bits, and never below the exponent -1074 of the subnormals. -/
def quantumExp (q : ℚ) : ℤ :=
  max (Int.log 2 |q| - 52) (-1074)

/-- The value a `double` takes when the exact result of an operation is `q`:
IEEE 754 binary64, round to nearest, ties to even.  Results of magnitude
`2^1024` or more, which a `double` turns into an infinity, are outside this
model. -/
def roundDouble (q : ℚ) : ℚ :=
  (roundHalfEven (q / (2 : ℚ) ^ quantumExp q) : ℚ) * (2 : ℚ) ^ quantumExp q

/-- The compound assignment `Mat3x3::operator+=(double x)`, each `val += x` rounded. -/
def opAddAssignScalarRounded (self : Mat3x3) (x : ℚ) : Mat3x3 :=
  forIJ (fun i j this => this.set i j (roundDouble (this.matrix i j + x))) self

/-- The compound assignment `Mat3x3::operator-=(double x)` over the rounded `+=`. -/
def opSubAssignScalarRounded (self : Mat3x3) (x : ℚ) : Mat3x3 :=
  opAddAssignScalarRounded self (-x)

/-- The pre-increment `Mat3x3::operator++()` over the rounded `+=`. -/
def preIncrementRounded (self : Mat3x3) : Mat3x3 :=
  opAddAssignScalarRounded self 1

/-- The pre-decrement `Mat3x3::operator--()` over the rounded `-=`. -/
def preDecrementRounded (self : Mat3x3) : Mat3x3 :=
  opSubAssignScalarRounded self 1

/-- The post-increment `Mat3x3::operator++(int)` over the rounded `+=`: the
returned copy and the receiver after the call. -/
def postIncrementRounded (self : Mat3x3) : Mat3x3 × Mat3x3 :=
  let temp := self
  (temp, preIncrementRounded self)

/-- The post-decrement `Mat3x3::operator--(int)` over the rounded `-=`: the
returned copy and the receiver after the call. -/
def postDecrementRounded (self : Mat3x3) : Mat3x3 × Mat3x3 :=
  let temp := self
  (temp, preDecrementRounded self)

/-- A test input: the matrix whose nine entries are all `2^-60`, a value that a
`double` holds exactly. -/
def tiny : Mat3x3 :=
  ofRows (1 / 2 ^ 60) (1 / 2 ^ 60) (1 / 2 ^ 60) (1 / 2 ^ 60) (1 / 2 ^ 60) (1 / 2 ^ 60)
    (1 / 2 ^ 60) (1 / 2 ^ 60) (1 / 2 ^ 60)

/-- The entries of a `Mat3x3` as a Mathlib matrix, used to state properties
against the standard determinant and the standard matrix product. -/
def toMatrix (m : Mat3x3) : Matrix (Fin 3) (Fin 3) ℚ :=
  Matrix.of m.matrix

end Mat3x3

/-! ### Doubles with overflow -/

/-- A value of type `double`: a finite number, an infinity with its sign, or a
NaN.  The sign of a zero is not kept: `0.0` and `-0.0` compare equal and are
both `finite 0`. -/
inductive Double where
  | finite (q : ℚ)
  | infinite (negative : Bool)
  | nan
deriving DecidableEq

namespace Double

/-- The `double` that an operation delivers when its exact result is `q`: the
nearest binary64 value, or an infinity of the same sign when that value has
magnitude `2^1024` or more. -/
def ofExact (q : ℚ) : Double :=
  if 2 ^ 1024 ≤ |Mat3x3.roundDouble q| then infinite (decide (q < 0))
  else finite (Mat3x3.roundDouble q)

/-- The unary minus of `double`. -/
def neg : Double → Double
  | finite q => finite (-q)
  | infinite s => infinite (!s)
  | nan => nan

/-- The addition `a + b` of `double`. -/
def add : Double → Double → Double
  | nan, _ => nan
  | _, nan => nan
  | infinite s, infinite t => if s = t then infinite s else nan
  | infinite s, finite _ => infinite s
  | finite _, infinite t => infinite t
  | finite a, finite b => ofExact (a + b)

/-- The subtraction `a - b` of `double`. -/
def sub (a b : Double) : Double :=
  add a (neg b)

/-- The multiplication `a * b` of `double`. -/
def mul : Double → Double → Double
  | nan, _ => nan
  | _, nan => nan
  | infinite s, infinite t => infinite (xor s t)
  | infinite s, finite b => if b = 0 then nan else infinite (xor s (decide (b < 0)))
  | finite a, infinite t => if a = 0 then nan else infinite (xor (decide (a < 0)) t)
  | finite a, finite b => ofExact (a * b)

/-- The division `a / b` of `double`.  A zero divisor counts as `+0.0`, the sign
of a zero not being kept. -/
def div : Double → Double → Double
  | nan, _ => nan
  | _, nan => nan
  | infinite _, infinite _ => nan
  | infinite s, finite b => infinite (xor s (decide (b < 0)))
  | finite _, infinite _ => finite 0
  | finite a, finite b =>
    if b = 0 then (if a = 0 then nan else infinite (decide (a < 0)))
    else ofExact (a / b)

/-- The comparison `x == 0` of `double`: false of a NaN and of an infinity. -/
def eqZero : Double → Bool
  | finite q => decide (q = 0)
  | infinite _ => false
  | nan => false

end Double

/-- The class `Mat3x3` with its entries read as `Double`. -/
structure Mat3x3Double where
  matrix : Fin 3 → Fin 3 → Double

namespace Mat3x3Double

/-- The assignment `m.matrix[i][j] = v`. -/
def set (m : Mat3x3Double) (i j : Fin 3) (v : Double) : Mat3x3Double :=
  ⟨fun r c => if r = i ∧ c = j then v else m.matrix r c⟩

/-- The default constructor `Mat3x3()`: all entries 0. -/
def zero : Mat3x3Double := ⟨fun _ _ => Double.finite 0⟩

/-- The matrix whose nine entries are all `c`. -/
def constant (c : Double) : Mat3x3Double := ⟨fun _ _ => c⟩

/-- The method `Mat3x3::determinant() const`, in the arithmetic of `double`. -/
def determinant (self : Mat3x3Double) : Double :=
  Double.add
    (Double.sub
      (Double.mul (self.matrix 0 0)
        (Double.sub (Double.mul (self.matrix 1 1) (self.matrix 2 2))
          (Double.mul (self.matrix 2 1) (self.matrix 1 2))))
      (Double.mul (self.matrix 0 1)
        (Double.sub (Double.mul (self.matrix 1 0) (self.matrix 2 2))
          (Double.mul (self.matrix 2 0) (self.matrix 1 2)))))
    (Double.mul (self.matrix 0 2)
      (Double.sub (Double.mul (self.matrix 1 0) (self.matrix 2 1))
        (Double.mul (self.matrix 2 0) (self.matrix 1 1))))

/-- The compound assignment `Mat3x3::operator*=(double x)`, in the arithmetic of `double`. -/
def opMulAssignScalar (self : Mat3x3Double) (x : Double) : Mat3x3Double :=
  Mat3x3.forIJ (fun i j this => this.set i j (Double.mul (this.matrix i j) x)) self

/-- The method `Mat3x3::inverse() const`, in the arithmetic of `double`: the
outcome and the receiver after the call. -/
def inverseCall (self : Mat3x3Double) : Except Exception Mat3x3Double × Mat3x3Double :=
  let det := self.determinant
  if det.eqZero then
    (Except.error (Exception.overflow_error "Matrix is not invertible"), self)
  else
    let adjoint := zero
    let adjoint := adjoint.set 0 0
      (Double.sub (Double.mul (self.matrix 1 1) (self.matrix 2 2)) (Double.mul (self.matrix 2 1) (self.matrix 1 2)))
    let adjoint := adjoint.set 0 1
      (Double.sub (Double.mul (self.matrix 0 2) (self.matrix 2 1)) (Double.mul (self.matrix 0 1) (self.matrix 2 2)))
    let adjoint := adjoint.set 0 2
      (Double.sub (Double.mul (self.matrix 0 1) (self.matrix 1 2)) (Double.mul (self.matrix 0 2) (self.matrix 1 1)))
    let adjoint := adjoint.set 1 0
      (Double.sub (Double.mul (self.matrix 1 2) (self.matrix 2 0)) (Double.mul (self.matrix 1 0) (self.matrix 2 2)))
    let adjoint := adjoint.set 1 1
      (Double.sub (Double.mul (self.matrix 0 0) (self.matrix 2 2)) (Double.mul (self.matrix 0 2) (self.matrix 2 0)))
    let adjoint := adjoint.set 1 2
      (Double.sub (Double.mul (self.matrix 1 0) (self.matrix 0 2)) (Double.mul (self.matrix 0 0) (self.matrix 1 2)))
    let adjoint := adjoint.set 2 0
      (Double.sub (Double.mul (self.matrix 1 0) (self.matrix 2 1)) (Double.mul (self.matrix 2 0) (self.matrix 1 1)))
    let adjoint := adjoint.set 2 1
      (Double.sub (Double.mul (self.matrix 2 0) (self.matrix 0 1)) (Double.mul (self.matrix 0 0) (self.matrix 2 1)))
    let adjoint := adjoint.set 2 2
      (Double.sub (Double.mul (self.matrix 0 0) (self.matrix 1 1)) (Double.mul (self.matrix 1 0) (self.matrix 0 1)))
    (Except.ok (opMulAssignScalar adjoint (Double.div (Double.finite 1) det)), self)

/-- The value or exception that `inverse()` gives its caller. -/
def inverse (self : Mat3x3Double) : Except Exception Mat3x3Double :=
  (inverseCall self).1

/-- A test input: the matrix whose nine entries are all `2^600`, a value that a
`double` holds exactly. -/
def huge : Mat3x3Double := constant (Double.finite (2 ^ 600))

end Mat3x3Double

/-! ## Theorems -/

namespace Mat3x3

/-! ### Entry-wise descriptions of the loops -/

theorem forIJ_unroll {σ : Type} (body : Fin 3 → Fin 3 → σ → σ) (s : σ) :
    forIJ body s =
      body 2 2 (body 2 1 (body 2 0 (body 1 2 (body 1 1 (body 1 0
        (body 0 2 (body 0 1 (body 0 0 s)))))))) := rfl

theorem set_matrix (m : Mat3x3) (i j r c : Fin 3) (v : ℚ) :
    (m.set i j v).matrix r c = if r = i ∧ c = j then v else m.matrix r c := rfl

theorem transposeFrame_self (M : Mat3x3) : (transposeFrame M).self = M := by
  simp [transposeFrame, forIJ_unroll]

theorem transpose_matrix (M : Mat3x3) (i j : Fin 3) :
    (transpose M).matrix i j = M.matrix j i := by
  simp only [transpose, transposeFrame, forIJ_unroll, set_matrix]
  fin_cases i <;> fin_cases j <;> simp

theorem opMulFrame_self (A B : Mat3x3) : (opMulFrame A B).self = A := by
  simp [opMulFrame, forIJ_unroll]

theorem opMulFrame_rhs (A B : Mat3x3) : (opMulFrame A B).rhs = B := by
  simp [opMulFrame, forIJ_unroll]

theorem opMul_matrix (A B : Mat3x3) (i j : Fin 3) :
    (opMul A B).matrix i j = A.matrix i j * B.matrix i j := by
  simp only [opMul, opMulFrame, forIJ_unroll, set_matrix, zero]
  fin_cases i <;> fin_cases j <;> simp

theorem opMulScalarFrame_self (M : Mat3x3) (x : ℚ) : (opMulScalarFrame M x).self = M := by
  simp [opMulScalarFrame, forIJ_unroll]

theorem opMulScalar_matrix (M : Mat3x3) (x : ℚ) (i j : Fin 3) :
    (opMulScalar M x).matrix i j = M.matrix i j * x := by
  simp only [opMulScalar, opMulScalarFrame, forIJ_unroll, set_matrix]
  fin_cases i <;> fin_cases j <;> simp

theorem opMulAssignScalar_matrix (M : Mat3x3) (x : ℚ) (i j : Fin 3) :
    (opMulAssignScalar M x).matrix i j = M.matrix i j * x := by
  simp only [opMulAssignScalar, forIJ_unroll, set_matrix]
  fin_cases i <;> fin_cases j <;> simp

theorem opAddAssignScalar_matrix (M : Mat3x3) (x : ℚ) (i j : Fin 3) :
    (opAddAssignScalar M x).matrix i j = M.matrix i j + x := by
  simp only [opAddAssignScalar, forIJ_unroll, set_matrix]
  fin_cases i <;> fin_cases j <;> simp

theorem opAddAssign_matrix (M N : Mat3x3) (i j : Fin 3) :
    (opAddAssign M N).matrix i j = M.matrix i j + N.matrix i j := by
  simp only [opAddAssign, forIJ_unroll, set_matrix]
  fin_cases i <;> fin_cases j <;> simp

/-- C1: for the matrix with rows (a,b,c), (d,e,f), (g,h,i), `determinant()` returns
`a(ei-fh) - b(di-fg) + c(dh-eg)`; for every matrix this is the standard
determinant of its entries, and the call operator returns the same value. -/
theorem determinant_cofactor_expansion :
    (∀ a b c d e f g h i : ℚ,
      determinant (ofRows a b c d e f g h i)
        = a * (e * i - f * h) - b * (d * i - f * g) + c * (d * h - e * g)) ∧
    (∀ M : Mat3x3, determinant M = Matrix.det (toMatrix M)) ∧
    (∀ M : Mat3x3, opCall M = determinant M) := by
  refine ⟨?_, ?_, ?_⟩
  · intro a b c d e f g h i
    simp [determinant, ofRows]
    ring
  · intro M
    rw [Matrix.det_fin_three]
    simp [determinant, toMatrix]
    ring
  · intro M
    rfl

end Mat3x3

namespace Mat3x3

theorem inverse_eq_ok (M : Mat3x3) (h : determinant M ≠ 0) :
    ∃ R, inverse M = Except.ok R ∧
      R.matrix 0 0 = (M.matrix 1 1 * M.matrix 2 2 - M.matrix 2 1 * M.matrix 1 2) * (1 / determinant M) ∧
      R.matrix 0 1 = (M.matrix 0 2 * M.matrix 2 1 - M.matrix 0 1 * M.matrix 2 2) * (1 / determinant M) ∧
      R.matrix 0 2 = (M.matrix 0 1 * M.matrix 1 2 - M.matrix 0 2 * M.matrix 1 1) * (1 / determinant M) ∧
      R.matrix 1 0 = (M.matrix 1 2 * M.matrix 2 0 - M.matrix 1 0 * M.matrix 2 2) * (1 / determinant M) ∧
      R.matrix 1 1 = (M.matrix 0 0 * M.matrix 2 2 - M.matrix 0 2 * M.matrix 2 0) * (1 / determinant M) ∧
      R.matrix 1 2 = (M.matrix 1 0 * M.matrix 0 2 - M.matrix 0 0 * M.matrix 1 2) * (1 / determinant M) ∧
      R.matrix 2 0 = (M.matrix 1 0 * M.matrix 2 1 - M.matrix 2 0 * M.matrix 1 1) * (1 / determinant M) ∧
      R.matrix 2 1 = (M.matrix 2 0 * M.matrix 0 1 - M.matrix 0 0 * M.matrix 2 1) * (1 / determinant M) ∧
      R.matrix 2 2 = (M.matrix 0 0 * M.matrix 1 1 - M.matrix 1 0 * M.matrix 0 1) * (1 / determinant M) := by
  simp only [inverse, inverseCall, if_neg h]
  refine ⟨_, rfl, ?_⟩
  simp [opMulAssignScalar_matrix, set_matrix, zero]

/-- C2: for every matrix `M` whose determinant is not zero, `inverse()` returns a
matrix `R` and the standard row-by-column product of `M` with `R` is the
identity matrix. -/
theorem inverse_stdMul_eq_one (M : Mat3x3) (h : determinant M ≠ 0) :
    ∃ R, inverse M = Except.ok R ∧ toMatrix M * toMatrix R = 1 := by
  obtain ⟨R, hR, h00, h01, h02, h10, h11, h12, h20, h21, h22⟩ := inverse_eq_ok M h
  refine ⟨R, hR, ?_⟩
  have hd : determinant M ≠ 0 := h
  unfold determinant at hd
  ext i j
  fin_cases i <;> fin_cases j <;>
    simp [Matrix.mul_apply, Fin.sum_univ_three, toMatrix, h00, h01, h02, h10, h11, h12,
      h20, h21, h22, determinant] <;>
    field_simp <;> ring

end Mat3x3

namespace Mat3x3

theorem det_A_val : determinant A = 2 := by
  simp [determinant, A, ofRows]
  norm_num

theorem inverse_A_val : inverse A = Except.ok aInvSolution := by
  have hdet : determinant A ≠ 0 := by
    rw [det_A_val]
    norm_num
  obtain ⟨R, hR, h00, h01, h02, h10, h11, h12, h20, h21, h22⟩ := inverse_eq_ok A hdet
  rw [det_A_val] at h00 h01 h02 h10 h11 h12 h20 h21 h22
  have hEq : R = aInvSolution := by
    ext i j
    fin_cases i <;> fin_cases j <;>
      simp [h00, h01, h02, h10, h11, h12, h20, h21, h22, aInvSolution, opAddAssign_matrix,
        opMulScalar_matrix, zero, m2, A, ofRows, Matrix.vecHead, Matrix.vecTail] <;>
      norm_num
  rw [hR, hEq]

/-- Witness of C2 on the matrix `A` of `main`: its determinant is not zero, its
`inverse()` is `aInvSolution` (0.5 times `m2`), and the standard product of the
two is the identity matrix. -/
theorem inverse_stdMul_eq_one_witness :
    determinant A ≠ 0 ∧ inverse A = Except.ok aInvSolution ∧
      toMatrix A * toMatrix aInvSolution = 1 := by
  have hdet : determinant A ≠ 0 := by
    rw [det_A_val]
    norm_num
  obtain ⟨R, hR, hprod⟩ := inverse_stdMul_eq_one A hdet
  rw [inverse_A_val] at hR
  have hEq : aInvSolution = R := by
    injection hR
  rw [← hEq] at hprod
  exact ⟨hdet, inverse_A_val, hprod⟩

/-- C3: `inverse()` throws the overflow error "Matrix is not invertible" if and
only if `determinant()` is 0, it returns a matrix if and only if the determinant
is not 0, and in both cases the receiver after the call is the receiver before
it. -/
theorem inverse_throws_iff_det_zero (M : Mat3x3) :
    ((inverseCall M).1 = Except.error (Exception.overflow_error "Matrix is not invertible")
        ↔ determinant M = 0) ∧
    ((∃ R, (inverseCall M).1 = Except.ok R) ↔ determinant M ≠ 0) ∧
    (∀ i j, (inverseCall M).2.matrix i j = M.matrix i j) := by
  by_cases h : determinant M = 0
  · simp [inverseCall, h]
  · simp [inverseCall, h]

/-- C4: `M * N` is the element-wise product of `M` and `N`, the call leaves both
operands as they were, and after `M *= N` the receiver holds that same
element-wise product. -/
theorem opMul_elementwise (M N : Mat3x3) :
    (∀ i j, (opMul M N).matrix i j = M.matrix i j * N.matrix i j) ∧
    (opMulFrame M N).self = M ∧
    (opMulFrame M N).rhs = N ∧
    (∀ i j, (opMulAssign M N).matrix i j = M.matrix i j * N.matrix i j) :=
  ⟨opMul_matrix M N, opMulFrame_self M N, opMulFrame_rhs M N, opMul_matrix M N⟩

/-- C5 as stated fails: the determinant of the matrix `A` with rows (1,1,-2),
(-3,-2,5), (-6,4,4) is not -94. -/
theorem determinant_A_ne_neg_94 : determinant A ≠ -94 := by
  rw [det_A_val]
  norm_num

/-- C5, amended: the determinant of the matrix `A` with rows (1,1,-2), (-3,-2,5),
(-6,4,4) is 2. -/
theorem determinant_A_eq_two : determinant A = 2 := by
  simp [determinant, A, ofRows]
  norm_num

/-- C6: `M /= 0` throws the overflow error "Division by zero" and leaves every
entry of the receiver as it was; `M /= x` with `x` not 0 does not throw. -/
theorem opDivAssignScalar_zero_throws (M : Mat3x3) :
    (opDivAssignScalar M 0).1 = Except.error (Exception.overflow_error "Division by zero") ∧
    (∀ i j, (opDivAssignScalar M 0).2.matrix i j = M.matrix i j) ∧
    (∀ x : ℚ, x ≠ 0 → (opDivAssignScalar M x).1 = Except.ok ()) := by
  refine ⟨?_, ?_, ?_⟩
  · simp [opDivAssignScalar]
  · intro i j
    simp [opDivAssignScalar]
  · intro x hx
    simp [opDivAssignScalar, hx]

/-- Witness of C6: dividing the matrix `A` of `main` by 2 does not throw. -/
theorem opDivAssignScalar_zero_throws_witness :
    (2 : ℚ) ≠ 0 ∧ (opDivAssignScalar A 2).1 = Except.ok () :=
  ⟨by norm_num, (opDivAssignScalar_zero_throws A).2.2 2 (by norm_num)⟩

end Mat3x3

namespace Mat3x3

theorem cellOf_cast (i j : Fin 3) (h : ¬ indexOutOfBounds ((i : ℕ), (j : ℕ))) :
    cellOf ((i : ℕ), (j : ℕ)) h = (i, j) := by
  simp [cellOf]

theorem not_indexOutOfBounds_cast (i j : Fin 3) :
    ¬ indexOutOfBounds (((i : ℕ) : ℤ), ((j : ℕ) : ℤ)) := by
  unfold indexOutOfBounds
  have hi := i.isLt
  have hj := j.isLt
  simp only []
  omega

/-- C7: for every pair of integers `(row, col)`, the const subscript and the
mutable subscript each throw the invalid-argument error "index out of bounds"
if and only if `row < 0`, `row >= 3`, `col < 0` or `col >= 3`; at every index
inside the bounds the const subscript returns the entry stored at `(row, col)`
and the mutable subscript returns a reference to that same cell; `(3,0)` and
`(0,-1)` throw in both. -/
theorem opIndex_throws_iff_out_of_bounds (M : Mat3x3) :
    (∀ row col : ℤ,
      opIndexConst M (row, col) = Except.error (Exception.invalid_argument "index out of bounds")
        ↔ (row < 0 ∨ row ≥ 3 ∨ col < 0 ∨ col ≥ 3)) ∧
    (∀ row col : ℤ,
      opIndex M (row, col) = Except.error (Exception.invalid_argument "index out of bounds")
        ↔ (row < 0 ∨ row ≥ 3 ∨ col < 0 ∨ col ≥ 3)) ∧
    (∀ i j : Fin 3, opIndexConst M (((i : ℕ) : ℤ), ((j : ℕ) : ℤ)) = Except.ok (M.matrix i j)) ∧
    (∀ i j : Fin 3, opIndex M (((i : ℕ) : ℤ), ((j : ℕ) : ℤ)) = Except.ok (i, j) ∧
      deref M (i, j) = M.matrix i j) ∧
    opIndexConst M (3, 0) = Except.error (Exception.invalid_argument "index out of bounds") ∧
    opIndexConst M (0, -1) = Except.error (Exception.invalid_argument "index out of bounds") ∧
    opIndex M (3, 0) = Except.error (Exception.invalid_argument "index out of bounds") ∧
    opIndex M (0, -1) = Except.error (Exception.invalid_argument "index out of bounds") := by
  refine ⟨?_, ?_, ?_, ?_, ?_, ?_, ?_, ?_⟩
  · intro row col
    unfold opIndexConst
    by_cases h : indexOutOfBounds (row, col)
    · rw [dif_pos h]
      simpa [indexOutOfBounds] using h
    · rw [dif_neg h]
      simpa [indexOutOfBounds] using h
  · intro row col
    unfold opIndex
    by_cases h : indexOutOfBounds (row, col)
    · rw [dif_pos h]
      simpa [indexOutOfBounds] using h
    · rw [dif_neg h]
      simpa [indexOutOfBounds] using h
  · intro i j
    unfold opIndexConst
    rw [dif_neg (not_indexOutOfBounds_cast i j), cellOf_cast]
  · intro i j
    unfold opIndex
    rw [dif_neg (not_indexOutOfBounds_cast i j), cellOf_cast]
    exact ⟨rfl, rfl⟩
  · simp [opIndexConst, indexOutOfBounds]
  · simp [opIndexConst, indexOutOfBounds]
  · simp [opIndex, indexOutOfBounds]
  · simp [opIndex, indexOutOfBounds]

theorem transpose_transpose (M : Mat3x3) : transpose (transpose M) = M := by
  ext i j
  rw [transpose_matrix, transpose_matrix]

/-- C8: `transpose()` returns a matrix whose entry `(i, j)` is the receiver's
entry `(j, i)`, the call leaves the receiver as it was, and transposing twice
gives back the matrix, entry for entry. -/
theorem transpose_swaps_indices (M : Mat3x3) :
    (∀ i j, (transpose M).matrix i j = M.matrix j i) ∧
    (transposeFrame M).self = M ∧
    (∀ i j, (transpose (transpose M)).matrix i j = M.matrix i j) := by
  refine ⟨transpose_matrix M, transposeFrame_self M, ?_⟩
  intro i j
  rw [transpose_transpose]

theorem isIdentity_eq_true_iff (M : Mat3x3) :
    isIdentity M = true ↔
      (∀ i, M.matrix i i = 1) ∧ (∀ i j, i ≠ j → M.matrix i j = 0) := by
  constructor
  · intro h
    simp [isIdentity, range3] at h
    obtain ⟨⟨d0, d1, d2⟩, ⟨a01, a02⟩, ⟨a10, a12⟩, a20, a21⟩ := h
    refine ⟨?_, ?_⟩
    · intro i
      fin_cases i
      · exact d0
      · exact d1
      · exact d2
    · intro i j hij
      fin_cases i <;> fin_cases j <;> first | exact absurd rfl hij | assumption
  · rintro ⟨hd, ho⟩
    simp [isIdentity, range3, hd]
    refine ⟨⟨?_, ?_⟩, ⟨?_, ?_⟩, ⟨?_, ?_⟩⟩ <;> exact ho _ _ (by decide)

end Mat3x3

namespace Mat3x3

theorem isIdentity_im : isIdentity im = true := by
  rw [isIdentity_eq_true_iff]
  refine ⟨?_, ?_⟩
  · intro i
    fin_cases i <;> simp [im, ofRows]
  · intro i j hij
    fin_cases i <;> fin_cases j <;>
      first | exact absurd rfl hij | simp [im, ofRows, Matrix.vecHead, Matrix.vecTail]

/-- C9: `isIdentity()` is true if and only if every diagonal entry is 1 and every
off-diagonal entry is 0; so when it is true of a matrix, overwriting any one
entry with a different value gives a matrix of which it is false. -/
theorem isIdentity_iff_diag_one_offdiag_zero (M : Mat3x3) :
    (isIdentity M = true ↔
      (∀ i, M.matrix i i = 1) ∧ (∀ i j, i ≠ j → M.matrix i j = 0)) ∧
    (isIdentity M = true →
      ∀ (i j : Fin 3) (v : ℚ), v ≠ M.matrix i j → isIdentity (M.set i j v) = false) := by
  refine ⟨isIdentity_eq_true_iff M, ?_⟩
  intro hM i j v hv
  obtain ⟨hd, ho⟩ := (isIdentity_eq_true_iff M).mp hM
  cases hset : isIdentity (M.set i j v) with
  | false => rfl
  | true =>
    exfalso
    obtain ⟨hd2, ho2⟩ := (isIdentity_eq_true_iff (M.set i j v)).mp hset
    by_cases hij : i = j
    · subst hij
      have h1 := hd2 i
      rw [set_matrix, if_pos ⟨rfl, rfl⟩] at h1
      exact hv (h1.trans (hd i).symm)
    · have h0 := ho2 i j hij
      rw [set_matrix, if_pos ⟨rfl, rfl⟩] at h0
      exact hv (h0.trans (ho i j hij).symm)

/-- Witness of C9 on the matrix `im` of `main`: `isIdentity()` is true of it, and
false once its entry `(0, 1)` is overwritten with 5. -/
theorem isIdentity_iff_diag_one_offdiag_zero_witness :
    isIdentity im = true ∧ (5 : ℚ) ≠ im.matrix 0 1 ∧ isIdentity (im.set 0 1 5) = false := by
  have hne : (5 : ℚ) ≠ im.matrix 0 1 := by
    simp [im, ofRows]
  exact ⟨isIdentity_im, hne,
    (isIdentity_iff_diag_one_offdiag_zero im).2 isIdentity_im 0 1 5 hne⟩

/-- C10: `isInvertible()` and the conversion to `bool` are true if and only if
the absolute value of `determinant()` is strictly greater than `2^-52`, the
machine epsilon of `double`; `operator!` returns the negation of that value. -/
theorem isInvertible_iff_abs_det_gt_epsilon (M : Mat3x3) :
    (isInvertible M = true ↔ |determinant M| > (2 : ℚ) ^ (-52 : ℤ)) ∧
    (opBool M = true ↔ |determinant M| > (2 : ℚ) ^ (-52 : ℤ)) ∧
    opNot M = (!isInvertible M) ∧
    opNot M = (!opBool M) := by
  have heps : epsilon = (2 : ℚ) ^ (-52 : ℤ) := by
    unfold epsilon
    rw [zpow_neg, one_div]
    norm_cast
  refine ⟨?_, ?_, rfl, rfl⟩
  · simp [isInvertible, heps]
  · simp [opBool, isInvertible, heps]

end Mat3x3

namespace Mat3x3

theorem opSubAssignScalar_matrix (M : Mat3x3) (x : ℚ) (i j : Fin 3) :
    (opSubAssignScalar M x).matrix i j = M.matrix i j - x := by
  rw [opSubAssignScalar, opAddAssignScalar_matrix, sub_eq_add_neg]

/-- C11: after `M += x`, `M -= x` and `M *= x` every entry is its old value plus
`x`, minus `x` and times `x`; for `x` not 0, `M /= x` does not throw and leaves
every entry equal to its old value divided by `x` (entries as exact numbers);
`M * x` returns the matrix that `M *= x` leaves in the receiver, and the call
leaves `M` as it was. -/
theorem scalar_ops_entrywise (M : Mat3x3) (x : ℚ) :
    (∀ i j, (opAddAssignScalar M x).matrix i j = M.matrix i j + x) ∧
    (∀ i j, (opSubAssignScalar M x).matrix i j = M.matrix i j - x) ∧
    (∀ i j, (opMulAssignScalar M x).matrix i j = M.matrix i j * x) ∧
    (x ≠ 0 → (opDivAssignScalar M x).1 = Except.ok () ∧
      ∀ i j, (opDivAssignScalar M x).2.matrix i j = M.matrix i j / x) ∧
    opMulScalar M x = opMulAssignScalar M x ∧
    (opMulScalarFrame M x).self = M := by
  refine ⟨opAddAssignScalar_matrix M x, opSubAssignScalar_matrix M x,
    opMulAssignScalar_matrix M x, ?_, ?_, opMulScalarFrame_self M x⟩
  · intro hx
    refine ⟨?_, ?_⟩
    · simp [opDivAssignScalar, hx]
    · intro i j
      simp only [opDivAssignScalar, if_neg hx, opMulAssignScalar_matrix]
      rw [mul_one_div]
  · ext i j
    rw [opMulScalar_matrix, opMulAssignScalar_matrix]

/-- Witness of C11: dividing the matrix `A` of `main` by 2 does not throw and
leaves every entry halved. -/
theorem scalar_ops_entrywise_witness :
    (2 : ℚ) ≠ 0 ∧ (opDivAssignScalar A 2).1 = Except.ok () ∧
      ∀ i j, (opDivAssignScalar A 2).2.matrix i j = A.matrix i j / 2 :=
  ⟨by norm_num, (scalar_ops_entrywise A 2).2.2.2.1 (by norm_num)⟩

/-- C13, amended: with the entries taken as exact numbers, post-increment
(post-decrement) returns the receiver as it was before the call and leaves every
entry one greater (one less), the receiver being what `+= 1` (`-= 1`) makes of
it; pre-increment (pre-decrement) returns the receiver after that same
mutation. -/
theorem increment_decrement_forms (M : Mat3x3) :
    (∀ i j, (postIncrement M).1.matrix i j = M.matrix i j) ∧
    (∀ i j, (postIncrement M).2.matrix i j = M.matrix i j + 1) ∧
    (∀ i j, (postDecrement M).1.matrix i j = M.matrix i j) ∧
    (∀ i j, (postDecrement M).2.matrix i j = M.matrix i j - 1) ∧
    (∀ i j, (preIncrement M).matrix i j = M.matrix i j + 1) ∧
    (∀ i j, (preDecrement M).matrix i j = M.matrix i j - 1) ∧
    preIncrement M = (postIncrement M).2 ∧
    preDecrement M = (postDecrement M).2 ∧
    (postIncrement M).2 = opAddAssignScalar M 1 ∧
    (postDecrement M).2 = opSubAssignScalar M 1 := by
  refine ⟨fun _ _ => rfl, ?_, fun _ _ => rfl, ?_, ?_, ?_, rfl, rfl, rfl, rfl⟩
  · intro i j
    simp only [postIncrement, preIncrement, opAddAssignScalar_matrix]
  · intro i j
    simp only [postDecrement, preDecrement, opSubAssignScalar_matrix]
  · intro i j
    simp only [preIncrement, opAddAssignScalar_matrix]
  · intro i j
    simp only [preDecrement, opSubAssignScalar_matrix]

/-- With the entries taken as exact numbers, the matrix whose nine entries are
all `c` has determinant 0 for every `c`, and `inverse()` on it throws the
overflow error "Matrix is not invertible". -/
theorem inverse_of_constant_matrix_throws (c : ℚ) :
    determinant (ofRows c c c c c c c c c) = 0 ∧
    inverse (ofRows c c c c c c c c c)
      = Except.error (Exception.overflow_error "Matrix is not invertible") := by
  have hdet : determinant (ofRows c c c c c c c c c) = 0 := by
    simp [determinant, ofRows]
  refine ⟨hdet, ?_⟩
  simp only [inverse, inverseCall, if_pos hdet]

theorem isOrthogonal_eq_true_iff (M : Mat3x3) :
    isOrthogonal M = true ↔
      (∀ i, M.matrix i i * M.matrix i i = 1) ∧
      (∀ i j, i ≠ j → M.matrix i j * M.matrix j i = 0) := by
  unfold isOrthogonal
  simp only [isIdentity_eq_true_iff, opMul_matrix, transpose_matrix]

/-- C15: `isOrthogonal()` is true if and only if `isIdentity()` holds of the
element-wise product of the matrix with its transpose, that is, if and only if
`M[i][i] * M[i][i] = 1` for every `i` and `M[i][j] * M[j][i] = 0` for all
`i != j`. -/
theorem isOrthogonal_iff_elementwise (M : Mat3x3) :
    (isOrthogonal M = true ↔ isIdentity (opMul M (transpose M)) = true) ∧
    (isOrthogonal M = true ↔
      (∀ i, M.matrix i i * M.matrix i i = 1) ∧
      (∀ i j, i ≠ j → M.matrix i j * M.matrix j i = 0)) := by
  refine ⟨Iff.rfl, ?_⟩
  unfold isOrthogonal
  simp only [isIdentity_eq_true_iff, opMul_matrix, transpose_matrix]

theorem det_ne_zero_of_isInvertible (M : Mat3x3) (h : isInvertible M = true) :
    determinant M ≠ 0 := by
  intro h0
  simp [isInvertible, h0, epsilon] at h
  have hpos : (0 : ℚ) < 2 ^ 52 := by positivity
  exact absurd h (not_lt.mpr hpos.le)

theorem isInvertible_A : isInvertible A = true := by
  simp only [isInvertible, det_A_val, epsilon]
  norm_num

/-- C19: if `isInvertible()` is true (equivalently, the conversion to `bool`
is), then `inverse()` does not throw: it returns a matrix. -/
theorem inverse_ok_of_isInvertible (M : Mat3x3) (h : isInvertible M = true) :
    opBool M = true ∧ (∃ R, inverse M = Except.ok R) ∧
    inverse M ≠ Except.error (Exception.overflow_error "Matrix is not invertible") := by
  obtain ⟨R, hR, -⟩ := inverse_eq_ok M (det_ne_zero_of_isInvertible M h)
  refine ⟨h, ⟨R, hR⟩, ?_⟩
  rw [hR]
  simp

/-- Witness of C19 on the matrix `A` of `main`: it is invertible and its
`inverse()` returns a matrix. -/
theorem inverse_ok_of_isInvertible_witness :
    isInvertible A = true ∧ ∃ R, inverse A = Except.ok R :=
  ⟨isInvertible_A, (inverse_ok_of_isInvertible A isInvertible_A).2.1⟩

end Mat3x3

namespace Mat3x3

theorem det_inverse_mul_det (M R : Mat3x3) (h : determinant M ≠ 0)
    (h00 : R.matrix 0 0 = (M.matrix 1 1 * M.matrix 2 2 - M.matrix 2 1 * M.matrix 1 2) * (1 / determinant M))
    (h01 : R.matrix 0 1 = (M.matrix 0 2 * M.matrix 2 1 - M.matrix 0 1 * M.matrix 2 2) * (1 / determinant M))
    (h02 : R.matrix 0 2 = (M.matrix 0 1 * M.matrix 1 2 - M.matrix 0 2 * M.matrix 1 1) * (1 / determinant M))
    (h10 : R.matrix 1 0 = (M.matrix 1 2 * M.matrix 2 0 - M.matrix 1 0 * M.matrix 2 2) * (1 / determinant M))
    (h11 : R.matrix 1 1 = (M.matrix 0 0 * M.matrix 2 2 - M.matrix 0 2 * M.matrix 2 0) * (1 / determinant M))
    (h12 : R.matrix 1 2 = (M.matrix 1 0 * M.matrix 0 2 - M.matrix 0 0 * M.matrix 1 2) * (1 / determinant M))
    (h20 : R.matrix 2 0 = (M.matrix 1 0 * M.matrix 2 1 - M.matrix 2 0 * M.matrix 1 1) * (1 / determinant M))
    (h21 : R.matrix 2 1 = (M.matrix 2 0 * M.matrix 0 1 - M.matrix 0 0 * M.matrix 2 1) * (1 / determinant M))
    (h22 : R.matrix 2 2 = (M.matrix 0 0 * M.matrix 1 1 - M.matrix 1 0 * M.matrix 0 1) * (1 / determinant M)) :
    determinant R * determinant M = 1 := by
  have hd : determinant M ≠ 0 := h
  rw [determinant, h00, h01, h02, h10, h11, h12, h20, h21, h22]
  field_simp
  unfold determinant
  ring

end Mat3x3

namespace Mat3x3

/-- C20: for every matrix `M` whose determinant is not zero, `inverse()` returns
a matrix `R` whose determinant is again not zero, so `inverse()` on `R` returns a
matrix `S`, and `S` equals `M` in all nine entries (entries as exact numbers). -/
theorem inverse_inverse_eq_self (M : Mat3x3) (h : determinant M ≠ 0) :
    ∃ R, inverse M = Except.ok R ∧ determinant R ≠ 0 ∧
      ∃ S, inverse R = Except.ok S ∧ ∀ i j, S.matrix i j = M.matrix i j := by
  obtain ⟨R, hR, h00, h01, h02, h10, h11, h12, h20, h21, h22⟩ := inverse_eq_ok M h
  have hprod := det_inverse_mul_det M R h h00 h01 h02 h10 h11 h12 h20 h21 h22
  have hdetR : determinant R ≠ 0 := by
    intro h0
    rw [h0, zero_mul] at hprod
    exact zero_ne_one hprod
  have hinv : 1 / determinant R = determinant M := by
    field_simp
    rw [mul_comm]
    exact hprod.symm
  obtain ⟨S, hS, s00, s01, s02, s10, s11, s12, s20, s21, s22⟩ := inverse_eq_ok R hdetR
  rw [hinv] at s00 s01 s02 s10 s11 s12 s20 s21 s22
  refine ⟨R, hR, hdetR, S, hS, ?_⟩
  have hd : determinant M ≠ 0 := h
  intro i j
  fin_cases i <;> fin_cases j <;>
    simp only [Fin.zero_eta, Fin.mk_one, Fin.reduceFinMk, s00, s01, s02, s10, s11, s12, s20,
      s21, s22, h00, h01, h02, h10, h11, h12, h20, h21, h22] <;>
    field_simp <;>
    unfold determinant <;>
    ring

/-- Witness of C20 on the matrix `A` of `main`, whose determinant is 2. -/
theorem inverse_inverse_eq_self_witness :
    determinant A ≠ 0 ∧
    ∃ R, inverse A = Except.ok R ∧ determinant R ≠ 0 ∧
      ∃ S, inverse R = Except.ok S ∧ ∀ i j, S.matrix i j = A.matrix i j :=
  have hdet : determinant A ≠ 0 := by
    rw [det_A_val]
    norm_num
  ⟨hdet, inverse_inverse_eq_self A hdet⟩

end Mat3x3

namespace Mat3x3

theorem ofRows_matrix (a b c d e f g h i : ℚ) :
    (ofRows a b c d e f g h i).matrix 0 0 = a ∧ (ofRows a b c d e f g h i).matrix 0 1 = b ∧
    (ofRows a b c d e f g h i).matrix 0 2 = c ∧ (ofRows a b c d e f g h i).matrix 1 0 = d ∧
    (ofRows a b c d e f g h i).matrix 1 1 = e ∧ (ofRows a b c d e f g h i).matrix 1 2 = f ∧
    (ofRows a b c d e f g h i).matrix 2 0 = g ∧ (ofRows a b c d e f g h i).matrix 2 1 = h ∧
    (ofRows a b c d e f g h i).matrix 2 2 = i :=
  ⟨rfl, rfl, rfl, rfl, rfl, rfl, rfl, rfl, rfl⟩

theorem aInvSolution_matrix_zero_zero : aInvSolution.matrix 0 0 = -14 := by
  rw [aInvSolution, opAddAssign_matrix, opMulScalar_matrix, m2, (ofRows_matrix _ _ _ _ _ _ _ _ _).1]
  simp only [zero]
  norm_num

/-- C16: the code at the failing input.  For the matrix `A` of `main`, whose
determinant is not zero and whose `inverse()` is `aInvSolution`, the product
`A * aInvSolution` computed with `operator*` has -14 at entry `(0, 0)`, so it is
not the identity matrix `im` and `isIdentity()` is false of it. -/
theorem opMul_A_aInvSolution_ne_im :
    determinant A ≠ 0 ∧ inverse A = Except.ok aInvSolution ∧
    (opMul A aInvSolution).matrix 0 0 = -14 ∧
    opMul A aInvSolution ≠ im ∧
    isIdentity (opMul A aInvSolution) = false := by
  have hdet : determinant A ≠ 0 := by
    rw [det_A_val]
    norm_num
  have h00 : (opMul A aInvSolution).matrix 0 0 = -14 := by
    rw [opMul_matrix, aInvSolution_matrix_zero_zero, A, (ofRows_matrix _ _ _ _ _ _ _ _ _).1]
    norm_num
  refine ⟨hdet, inverse_A_val, h00, ?_, ?_⟩
  · intro hEq
    rw [hEq, im, (ofRows_matrix _ _ _ _ _ _ _ _ _).1] at h00
    norm_num at h00
  · cases hI : isIdentity (opMul A aInvSolution) with
    | false => rfl
    | true =>
      exfalso
      have h1 := ((isIdentity_eq_true_iff _).mp hI).1 0
      rw [h00] at h1
      norm_num at h1

end Mat3x3

namespace Mat3x3

theorem det_opMul_A_aInvSolution : determinant (opMul A aInvSolution) = -564 := by
  simp [determinant, opMul_matrix, aInvSolution, opAddAssign_matrix, opMulScalar_matrix, zero,
    A, m2, ofRows, Matrix.vecHead, Matrix.vecTail]
  norm_num

theorem det_im : determinant im = 1 := by
  simp [determinant, im, ofRows, Matrix.vecHead, Matrix.vecTail]

/-- The condition of `assert(A * aInvSolution == im)` in `main` is true: both
sides convert to `true`, although the product is not the identity matrix. -/
theorem opEq_opMul_A_aInvSolution_im : opEq (opMul A aInvSolution) im = true := by
  have hl : isInvertible (opMul A aInvSolution) = true := by
    simp only [isInvertible, det_opMul_A_aInvSolution, epsilon]
    norm_num
  have hr : isInvertible im = true := by
    simp only [isInvertible, det_im, epsilon]
    norm_num
  simp [opEq, opBool, hl, hr]

/-- C17: the code at two failing inputs.  The quarter turn is orthogonal (its
standard product with its transpose is the identity matrix) and `isOrthogonal()`
is false of it; the shear is not orthogonal and `isOrthogonal()` is true of it. -/
theorem isOrthogonal_differs_from_standard_product :
    (toMatrix quarterTurn * (toMatrix quarterTurn).transpose = 1 ∧
      isOrthogonal quarterTurn = false) ∧
    (toMatrix shear * (toMatrix shear).transpose ≠ 1 ∧
      isOrthogonal shear = true) := by
  refine ⟨⟨?_, ?_⟩, ?_, ?_⟩
  · ext i j
    fin_cases i <;> fin_cases j <;>
      simp [Matrix.mul_apply, Fin.sum_univ_three, toMatrix, quarterTurn, ofRows,
        Matrix.vecHead, Matrix.vecTail]
  · cases hO : isOrthogonal quarterTurn with
    | false => rfl
    | true =>
      exfalso
      have h1 := ((isOrthogonal_eq_true_iff quarterTurn).mp hO).1 0
      simp [quarterTurn, ofRows] at h1
  · intro hEq
    have h01 := congrFun (congrFun hEq 0) 1
    simp [Matrix.mul_apply, Fin.sum_univ_three, toMatrix, shear, ofRows,
      Matrix.vecHead, Matrix.vecTail] at h01
  · rw [isOrthogonal_eq_true_iff]
    refine ⟨?_, ?_⟩
    · intro i
      fin_cases i <;> simp [shear, ofRows, Matrix.vecHead, Matrix.vecTail]
    · intro i j hij
      fin_cases i <;> fin_cases j <;>
        first
          | exact absurd rfl hij
          | simp [shear, ofRows, Matrix.vecHead, Matrix.vecTail]

/-- C18: the code at the failing input.  `isAntisymmetric()` is true of the
identity matrix `im` of `main`, whose entry `(0, 0)` is 1 and not its own
negative: the diagonal is never tested. -/
theorem isAntisymmetric_im_true :
    isAntisymmetric im = true ∧ im.matrix 0 0 = 1 ∧ im.matrix 0 0 ≠ -im.matrix 0 0 := by
  refine ⟨?_, rfl, ?_⟩
  · simp [isAntisymmetric, im, ofRows, Matrix.vecHead, Matrix.vecTail]
  · rw [im, (ofRows_matrix _ _ _ _ _ _ _ _ _).1]
    norm_num

end Mat3x3

namespace Mat3x3

/-! ### Pre-increment followed by pre-decrement -/

theorem roundDouble_zero : roundDouble 0 = 0 := by
  simp [roundDouble, roundHalfEven]

theorem int_log_two_eq (q : ℚ) (n : ℤ) (hq : 0 < q) (hlo : (2 : ℚ) ^ n ≤ q)
    (hhi : q < (2 : ℚ) ^ (n + 1)) : Int.log 2 q = n := by
  have h1 : n ≤ Int.log 2 q :=
    (Int.zpow_le_iff_le_log (by norm_num) hq).mp (by exact_mod_cast hlo)
  have h2 : Int.log 2 q < n + 1 :=
    (Int.lt_zpow_iff_log_lt (by norm_num) hq).mp (by exact_mod_cast hhi)
  omega

theorem quantumExp_tiny : quantumExp (1 / 2 ^ 60) = -112 := by
  have hlog : Int.log 2 |(1 / 2 ^ 60 : ℚ)| = -60 := by
    rw [abs_of_pos (by positivity)]
    apply int_log_two_eq
    · positivity
    · norm_num [zpow_neg]
    · norm_num [zpow_neg]
  rw [quantumExp, hlog]
  rfl

theorem roundDouble_tiny : roundDouble (1 / 2 ^ 60) = 1 / 2 ^ 60 := by
  have hfl : ⌊((1 / 2 ^ 60 : ℚ) / (2 : ℚ) ^ (-112 : ℤ))⌋ = 2 ^ 52 := by
    rw [Int.floor_eq_iff]
    norm_num [zpow_neg]
  rw [roundDouble, quantumExp_tiny, roundHalfEven, hfl]
  norm_num [zpow_neg]

theorem quantumExp_tiny_add_one : quantumExp (1 / 2 ^ 60 + 1) = -52 := by
  have hlog : Int.log 2 |(1 / 2 ^ 60 + 1 : ℚ)| = 0 := by
    rw [abs_of_pos (by positivity)]
    apply int_log_two_eq
    · positivity
    · norm_num
    · norm_num
  rw [quantumExp, hlog]
  rfl

theorem roundDouble_tiny_add_one : roundDouble (1 / 2 ^ 60 + 1) = 1 := by
  have hfl : ⌊((1 / 2 ^ 60 + 1 : ℚ) / (2 : ℚ) ^ (-52 : ℤ))⌋ = 2 ^ 52 := by
    rw [Int.floor_eq_iff]
    norm_num [zpow_neg]
  rw [roundDouble, quantumExp_tiny_add_one, roundHalfEven, hfl]
  norm_num [zpow_neg]

theorem opAddAssignScalarRounded_matrix (M : Mat3x3) (x : ℚ) (i j : Fin 3) :
    (opAddAssignScalarRounded M x).matrix i j = roundDouble (M.matrix i j + x) := by
  simp only [opAddAssignScalarRounded, forIJ_unroll, set_matrix]
  fin_cases i <;> fin_cases j <;> simp

theorem tiny_matrix (i j : Fin 3) : tiny.matrix i j = 1 / 2 ^ 60 := by
  fin_cases i <;> fin_cases j <;> rfl

/-- C12 as stated fails once the additions round as a `double` does.  Every entry
of `tiny` is a value a `double` holds exactly; pre-increment turns each into 1,
pre-decrement then turns each into 0, and 0 is not the original entry. -/
theorem preDecrementRounded_preIncrementRounded_tiny_ne :
    (∀ i j, roundDouble (tiny.matrix i j) = tiny.matrix i j) ∧
    (∀ i j, (preIncrementRounded tiny).matrix i j = 1) ∧
    (∀ i j, (preDecrementRounded (preIncrementRounded tiny)).matrix i j = 0) ∧
    (preDecrementRounded (preIncrementRounded tiny)).matrix 0 0 ≠ tiny.matrix 0 0 := by
  have hinc : ∀ i j, (preIncrementRounded tiny).matrix i j = 1 := by
    intro i j
    rw [preIncrementRounded, opAddAssignScalarRounded_matrix, tiny_matrix,
      roundDouble_tiny_add_one]
  have hdec : ∀ i j, (preDecrementRounded (preIncrementRounded tiny)).matrix i j = 0 := by
    intro i j
    rw [preDecrementRounded, opSubAssignScalarRounded, opAddAssignScalarRounded_matrix, hinc,
      add_neg_cancel, roundDouble_zero]
  refine ⟨?_, hinc, hdec, ?_⟩
  · intro i j
    rw [tiny_matrix, roundDouble_tiny]
  · rw [hdec, tiny_matrix]
    norm_num

/-- C12, amended: with the entries taken as exact numbers, pre-increment followed
by pre-decrement gives back the matrix in all nine entries. -/
theorem preDecrement_preIncrement_exact (M : Mat3x3) :
    (∀ i j, (preDecrement (preIncrement M)).matrix i j = M.matrix i j) ∧
    preDecrement (preIncrement M) = M := by
  have h : ∀ i j, (preDecrement (preIncrement M)).matrix i j = M.matrix i j := by
    intro i j
    rw [preDecrement, opSubAssignScalar_matrix, preIncrement, opAddAssignScalar_matrix,
      add_sub_cancel_right]
  refine ⟨h, ?_⟩
  ext i j
  exact h i j

end Mat3x3

namespace Mat3x3

/-! ### Post-increment and post-decrement under rounding -/

theorem quantumExp_tiny_sub_one : quantumExp (1 / 2 ^ 60 + -1) = -53 := by
  have hlog : Int.log 2 |(1 / 2 ^ 60 + -1 : ℚ)| = -1 := by
    rw [abs_of_neg (by norm_num)]
    apply int_log_two_eq
    · norm_num
    · norm_num [zpow_neg]
    · norm_num
  rw [quantumExp, hlog]
  rfl

theorem roundDouble_tiny_sub_one : roundDouble (1 / 2 ^ 60 + -1) = -1 := by
  have hfl : ⌊((1 / 2 ^ 60 + -1 : ℚ) / (2 : ℚ) ^ (-53 : ℤ))⌋ = -2 ^ 53 := by
    rw [Int.floor_eq_iff]
    norm_num [zpow_neg]
  rw [roundDouble, quantumExp_tiny_sub_one, roundHalfEven, hfl]
  norm_num [zpow_neg]

/-- C13 as stated fails once the additions round as a `double` does.  Every entry
of `tiny` is `2^-60`, a value a `double` holds exactly; post-increment returns
`tiny` and leaves every entry 1, which is not the old entry plus 1, and
post-decrement leaves every entry -1, which is not the old entry minus 1. -/
theorem postIncrementRounded_tiny_ne_add_one :
    (∀ i j, roundDouble (tiny.matrix i j) = tiny.matrix i j) ∧
    (∀ i j, (postIncrementRounded tiny).1.matrix i j = tiny.matrix i j) ∧
    (∀ i j, (postIncrementRounded tiny).2.matrix i j = 1) ∧
    (postIncrementRounded tiny).2.matrix 0 0 ≠ tiny.matrix 0 0 + 1 ∧
    (∀ i j, (postDecrementRounded tiny).2.matrix i j = -1) ∧
    (postDecrementRounded tiny).2.matrix 0 0 ≠ tiny.matrix 0 0 - 1 := by
  have hinc : ∀ i j, (postIncrementRounded tiny).2.matrix i j = 1 := by
    intro i j
    simp only [postIncrementRounded]
    rw [preIncrementRounded, opAddAssignScalarRounded_matrix, tiny_matrix,
      roundDouble_tiny_add_one]
  have hdec : ∀ i j, (postDecrementRounded tiny).2.matrix i j = -1 := by
    intro i j
    simp only [postDecrementRounded]
    rw [preDecrementRounded, opSubAssignScalarRounded, opAddAssignScalarRounded_matrix,
      tiny_matrix, roundDouble_tiny_sub_one]
  refine ⟨?_, fun _ _ => rfl, hinc, ?_, hdec, ?_⟩
  · intro i j
    rw [tiny_matrix, roundDouble_tiny]
  · rw [hinc, tiny_matrix]
    norm_num
  · rw [hdec, tiny_matrix]
    norm_num

end Mat3x3

namespace Mat3x3

theorem quantumExp_two_pow_600 : quantumExp (2 ^ 600) = 548 := by
  have hlog : Int.log 2 |(2 ^ 600 : ℚ)| = 600 := by
    rw [abs_of_pos (by positivity)]
    apply int_log_two_eq
    · positivity
    · norm_num
    · norm_num
  rw [quantumExp, hlog]
  rfl

theorem roundDouble_two_pow_600 : roundDouble (2 ^ 600) = 2 ^ 600 := by
  have hfl : ⌊((2 ^ 600 : ℚ) / (2 : ℚ) ^ (548 : ℤ))⌋ = 2 ^ 52 := by
    rw [Int.floor_eq_iff]
    norm_num
  rw [roundDouble, quantumExp_two_pow_600, roundHalfEven, hfl]
  norm_num

theorem quantumExp_two_pow_1200 : quantumExp (2 ^ 600 * 2 ^ 600) = 1148 := by
  have hlog : Int.log 2 |(2 ^ 600 * 2 ^ 600 : ℚ)| = 1200 := by
    rw [abs_of_pos (by positivity)]
    apply int_log_two_eq
    · positivity
    · norm_num
    · norm_num
  rw [quantumExp, hlog]
  rfl

theorem roundDouble_two_pow_1200 : roundDouble (2 ^ 600 * 2 ^ 600) = 2 ^ 1200 := by
  have hfl : ⌊((2 ^ 600 * 2 ^ 600 : ℚ) / (2 : ℚ) ^ (1148 : ℤ))⌋ = 2 ^ 52 := by
    rw [Int.floor_eq_iff]
    norm_num
  rw [roundDouble, quantumExp_two_pow_1200, roundHalfEven, hfl]
  norm_num

theorem quantumExp_one : quantumExp (1 * 1) = -52 := by
  have hlog : Int.log 2 |(1 * 1 : ℚ)| = 0 := by
    rw [abs_of_pos (by norm_num)]
    apply int_log_two_eq
    · norm_num
    · norm_num
    · norm_num
  rw [quantumExp, hlog]
  rfl

theorem roundDouble_one : roundDouble (1 * 1) = 1 := by
  have hfl : ⌊((1 * 1 : ℚ) / (2 : ℚ) ^ (-52 : ℤ))⌋ = 2 ^ 52 := by
    rw [Int.floor_eq_iff]
    norm_num [zpow_neg]
  rw [roundDouble, quantumExp_one, roundHalfEven, hfl]
  norm_num [zpow_neg]

end Mat3x3

namespace Double

theorem ofExact_zero : ofExact 0 = finite 0 := by
  have h : ¬ (2 : ℚ) ^ 1024 ≤ |Mat3x3.roundDouble 0| := by
    rw [Mat3x3.roundDouble_zero, abs_zero]
    exact not_le.mpr (by positivity)
  rw [ofExact, if_neg h, Mat3x3.roundDouble_zero]

theorem ofExact_two_pow_600 : ofExact (2 ^ 600) = finite (2 ^ 600) := by
  have h : ¬ (2 : ℚ) ^ 1024 ≤ |Mat3x3.roundDouble (2 ^ 600)| := by
    rw [Mat3x3.roundDouble_two_pow_600, abs_of_pos (by positivity)]
    norm_num
  rw [ofExact, if_neg h, Mat3x3.roundDouble_two_pow_600]

theorem mul_two_pow_600_self :
    mul (finite (2 ^ 600)) (finite (2 ^ 600)) = infinite false := by
  have h : (2 : ℚ) ^ 1024 ≤ |Mat3x3.roundDouble (2 ^ 600 * 2 ^ 600)| := by
    rw [Mat3x3.roundDouble_two_pow_1200, abs_of_pos (by positivity)]
    norm_num
  have hs : ¬ ((2 : ℚ) ^ 600 * 2 ^ 600 < 0) := not_lt.mpr (by positivity)
  simp only [mul, ofExact, if_pos h, hs, decide_False]

theorem sub_finite_self (r : ℚ) : sub (finite r) (finite r) = finite 0 := by
  simp only [sub, neg, add, add_neg_cancel, ofExact_zero]

theorem mul_finite_zero (q : ℚ) : mul (finite q) (finite 0) = finite 0 := by
  simp only [mul, mul_zero, ofExact_zero]

theorem add_finite_zero_zero : add (finite 0) (finite 0) = finite 0 := by
  simp only [add, add_zero, ofExact_zero]

theorem sub_infinite_self (s : Bool) : sub (infinite s) (infinite s) = nan := by
  cases s <;> rfl

theorem mul_nan_right (a : Double) : mul a nan = nan := by
  cases a <;> rfl

theorem sub_nan_right (a : Double) : sub a nan = nan := by
  cases a <;> rfl

theorem add_nan_right (a : Double) : add a nan = nan := by
  cases a <;> rfl

end Double

namespace Mat3x3Double

theorem determinant_huge : determinant huge = Double.nan := by
  simp only [determinant, huge, constant, Double.mul_two_pow_600_self,
    Double.sub_infinite_self, Double.mul_nan_right, Double.sub_nan_right, Double.add_nan_right]

theorem opMulAssignScalar_nan (M : Mat3x3Double) (i j : Fin 3) :
    (opMulAssignScalar M Double.nan).matrix i j = Double.nan := by
  simp only [opMulAssignScalar, Mat3x3.forIJ_unroll, set, Double.mul_nan_right]
  fin_cases i <;> fin_cases j <;> simp

theorem inverse_of_determinant_nan (M : Mat3x3Double) (h : determinant M = Double.nan) :
    ∃ R, inverse M = Except.ok R ∧ ∀ i j, R.matrix i j = Double.nan := by
  have hz : (Double.eqZero Double.nan) = false := rfl
  have hdiv : Double.div (Double.finite 1) Double.nan = Double.nan := rfl
  simp only [inverse, inverseCall, h, hz, hdiv]
  exact ⟨_, rfl, fun i j => opMulAssignScalar_nan _ i j⟩

theorem huge_matrix (i j : Fin 3) : huge.matrix i j = Double.finite (2 ^ 600) := by
  simp only [huge, constant]

/-- C14 as stated fails on doubles when `c * c` overflows.  Every entry of `huge`
is `2^600`, a value a `double` holds exactly; `c * c` is then an infinity, every
minor is infinity minus infinity, a NaN, so `determinant()` is a NaN and not 0,
`det == 0` is false, and `inverse()` returns a matrix of nine NaN instead of
throwing. -/
theorem inverse_huge_does_not_throw :
    Double.ofExact (2 ^ 600) = Double.finite (2 ^ 600) ∧
    (∀ i j, huge.matrix i j = Double.finite (2 ^ 600)) ∧
    determinant huge = Double.nan ∧
    determinant huge ≠ Double.finite 0 ∧
    (∃ R, inverse huge = Except.ok R ∧ ∀ i j, R.matrix i j = Double.nan) ∧
    inverse huge ≠ Except.error (Exception.overflow_error "Matrix is not invertible") := by
  have hdet := determinant_huge
  have hinv := inverse_of_determinant_nan huge hdet
  refine ⟨Double.ofExact_two_pow_600, huge_matrix, hdet, ?_, hinv, ?_⟩
  · rw [hdet]
    exact fun hne => Double.noConfusion hne
  · obtain ⟨R, hR, -⟩ := hinv
    rw [hR]
    exact fun hne => Except.noConfusion hne

end Mat3x3Double

namespace Mat3x3Double

/-- C14, amended: for every finite scalar `c` whose square `c * c` does not
overflow as a `double`, the matrix whose nine entries are all `c` has
determinant 0 in the arithmetic of `double`, and `inverse()` on it throws the
overflow error "Matrix is not invertible"; with the entries taken as exact
numbers the same holds for every scalar. -/
theorem inverse_of_constant_throws_of_finite_square (c : ℚ)
    (h : |Mat3x3.roundDouble (c * c)| < 2 ^ 1024) :
    (determinant (constant (Double.finite c)) = Double.finite 0 ∧
      inverse (constant (Double.finite c))
        = Except.error (Exception.overflow_error "Matrix is not invertible")) ∧
    (∀ x : ℚ, Mat3x3.determinant (Mat3x3.ofRows x x x x x x x x x) = 0 ∧
      Mat3x3.inverse (Mat3x3.ofRows x x x x x x x x x)
        = Except.error (Exception.overflow_error "Matrix is not invertible")) := by
  have hmul : Double.mul (Double.finite c) (Double.finite c)
      = Double.finite (Mat3x3.roundDouble (c * c)) := by
    simp only [Double.mul, Double.ofExact, if_neg (not_le.mpr h)]
  have hdet : determinant (constant (Double.finite c)) = Double.finite 0 := by
    simp only [determinant, constant, hmul, Double.sub_finite_self, Double.mul_finite_zero,
      Double.add_finite_zero_zero]
  have hz : Double.eqZero (Double.finite 0) = true := by
    simp [Double.eqZero]
  refine ⟨⟨hdet, ?_⟩, Mat3x3.inverse_of_constant_matrix_throws⟩
  simp only [inverse, inverseCall, hdet, hz, if_true]

/-- Witness of C14, amended, at `c = 1`, whose square is 1. -/
theorem inverse_of_constant_throws_of_finite_square_witness :
    |Mat3x3.roundDouble (1 * 1)| < 2 ^ 1024 ∧
    determinant (constant (Double.finite 1)) = Double.finite 0 ∧
    inverse (constant (Double.finite 1))
      = Except.error (Exception.overflow_error "Matrix is not invertible") := by
  have h : |Mat3x3.roundDouble (1 * 1)| < 2 ^ 1024 := by
    rw [Mat3x3.roundDouble_one]
    norm_num
  exact ⟨h, (inverse_of_constant_throws_of_finite_square 1 h).1⟩

end Mat3x3Double
